import Mathlib

/-!
Shallow embedding of the `XRTimeSeries` class from
`src/brenowitz-data-loading.ipynb` (the only original logic in the
repository), together with the small fragment of numpy basic indexing
that its `__getitem__` uses.

Machine arrays are modelled as a shape (a list of axis extents) plus a
total function from multi-indices to rational values; the numeric content
of a float32 cast is abstracted (the cast is tracked as a dtype change),
since none of the verified properties inspect array values after casting.
-/

/-- numpy dtypes that occur in the notebook: `np.ones` produces `float64`
arrays and `__getitem__` casts with `.astype(np.float32)`. -/
inductive NpDType
  | float64
  | float32
deriving DecidableEq, Inhabited

/-- A numpy `ndarray`: a shape together with the value at each
multi-index (the function is total; only indices within the shape are
meaningful) and a dtype. -/
structure NDArray where
  shape : List Nat
  dtype : NpDType
  data : List Nat → ℚ
deriving Inhabited

/-- `ndarray.astype(dtype)`: same shape, new dtype.  The numeric rounding
performed by a narrowing cast is abstracted away. -/
def NDArray.astype (a : NDArray) (dt : NpDType) : NDArray :=
  { a with dtype := dt }

/-- One component of a numpy basic-indexing tuple, as used at
`__getitem__`: a `slice(a, b)` with step 1, a full slice `slice(None)`
(written `:`), `None` (= `np.newaxis`), or an integer index. -/
inductive IndexItem
  | slice (start stop : Nat)
  | sliceAll
  | newaxis
  | idx (i : Nat)

/-- Length of the axis selected by `slice(a, b)` (step 1) out of an axis
of extent `n`: numpy clamps both bounds to `n`. -/
def sliceLen (a b n : Nat) : Nat :=
  min b n - min a n

/-- Result shape of numpy basic indexing: each `slice`/`sliceAll`/`idx`
consumes one axis of the input (an integer index must be in bounds, else
`IndexError`, modelled as `none`), `newaxis` inserts a unit axis, and
axes not covered by the tuple are kept.  A tuple longer than the input
rank is an `IndexError` (`none`). -/
def applyIndexShape : List IndexItem → List Nat → Option (List Nat)
  | [], rest => some rest
  | IndexItem.slice a b :: items, n :: rest =>
      (applyIndexShape items rest).map fun s => sliceLen a b n :: s
  | IndexItem.sliceAll :: items, n :: rest =>
      (applyIndexShape items rest).map fun s => n :: s
  | IndexItem.newaxis :: items, rest =>
      (applyIndexShape items rest).map fun s => 1 :: s
  | IndexItem.idx i :: items, n :: rest =>
      if i < n then applyIndexShape items rest else none
  | IndexItem.slice _ _ :: _, [] => none
  | IndexItem.sliceAll :: _, [] => none
  | IndexItem.idx _ :: _, [] => none

/-- The source multi-index read by a basic-indexing view at a given
output multi-index. -/
def applyIndexMap : List IndexItem → List Nat → List Nat
  | [], out => out
  | IndexItem.slice a _ :: items, o :: out => (a + o) :: applyIndexMap items out
  | IndexItem.sliceAll :: items, o :: out => o :: applyIndexMap items out
  | IndexItem.newaxis :: items, _ :: out => applyIndexMap items out
  | IndexItem.idx i :: items, out => i :: applyIndexMap items out
  | IndexItem.slice _ _ :: _, [] => []
  | IndexItem.sliceAll :: _, [] => []
  | IndexItem.newaxis :: _, [] => []

/-- numpy basic indexing `arr[items]`; `none` models `IndexError`. -/
def NDArray.index (a : NDArray) (items : List IndexItem) : Option NDArray :=
  (applyIndexShape items a.shape).map fun s =>
    { shape := s, dtype := a.dtype, data := fun out => a.data (applyIndexMap items out) }

/-- One variable of an xarray `Dataset`: its declared dimension names (a
tuple of names drawn from `time, z, y, x` in the notebook) and its data.
Each axis extent is the dataset-wide extent of the corresponding
dimension, as xarray guarantees. -/
structure XRVariable where
  dims : List String
  dtype : NpDType
  values : List Nat → ℚ
deriving Inhabited

/-- An xarray `Dataset`: dimension extents (`len(ds[dim].values)` for a
dimension name) and the named data variables in insertion order.
Variable names are strings, as in the notebook. -/
structure XRDataset where
  sizes : String → Nat
  data_vars : List (String × XRVariable)
deriving Inhabited

/-- `data[key].values` for a variable: a numpy array whose shape lists
the extents of the variable's dimensions in declaration order. -/
def dataArrayOf (d : XRDataset) (v : XRVariable) : NDArray :=
  { shape := v.dims.map d.sizes, dtype := v.dtype, data := v.values }

/-- A Python `dict` key of the notebook: the variable names used are
strings, but a dict can be probed with an integer key as well (the
`time_dim` property does `self.dims[0]`). -/
inductive PyKey
  | str (s : String)
  | int (n : Int)
deriving DecidableEq

/-- The constant-variable test of `__init__`:
`len({'x', 'y', 'time'} & set(data[key].dims)) == 0`. -/
def isConstantDims (dims : List String) : Bool :=
  (["x", "y", "time"].filter fun s => dims.contains s).length == 0

/-- `time_length or len(data.time)`: Python `or` replaces a falsy left
operand (`None` or `0`) by the full time extent. -/
def effTimeLength (data : XRDataset) (time_length : Option Nat) : Nat :=
  match time_length with
  | none => data.sizes "time"
  | some n => if n = 0 then data.sizes "time" else n

/-- `range(0, stop, step)` for `step ≥ 1`: the multiples of `step` below
`stop`. -/
def rangeStep (stop step : Nat) : List Nat :=
  (List.range ((stop + step - 1) / step)).map fun i => i * step

/-- `itertools.product(t_iter, y_iter, x_iter)`: triples enumerated with
the first iterator outermost and the last innermost. -/
def product3 (ts ys xs : List Nat) : List (Nat × Nat × Nat) :=
  ts.flatMap fun t => ys.flatMap fun y => xs.map fun x => (t, y, x)

/-- The two ways construction of `XRTimeSeries` can raise before an
object is produced: `range(0, len_t, 0)` raises `ValueError` (zero step)
at the `t_iter` line of `setup_indices`, and the
`assert len_t % self.time_length == 0` on the next line raises
`AssertionError` when the window length does not divide the time
extent. -/
inductive ConstructError
  | rangeStepZero
  | assertionError
deriving DecidableEq

/-- Runtime errors of the accessor methods: an unbound global name
(`NameError`) and a missing object attribute (`AttributeError`). -/
inductive PyError
  | nameError (n : String)
  | attributeError (n : String)
deriving DecidableEq

/-- The names the notebook's single import cell binds:
`import numpy as np`, `import xarray as xr`,
`from itertools import product`, and
`from torch.utils.data import Dataset, DataLoader`.  Note that the last
line binds `Dataset` and `DataLoader` but not `torch` itself, and that
`valmap` (from `toolz`) is never imported. -/
def importedNames : List String :=
  ["np", "xr", "product", "Dataset", "DataLoader"]

/-- The instance state an `XRTimeSeries.__init__` call leaves behind
(the class attribute `dims` is shadowed by the instance attribute of the
same name set in `__init__`, so only the instance attributes are
modelled).  `std_attr` models the dynamically settable attribute `std`
read by the `scale` property; no method of the class ever sets it. -/
structure XRTimeSeries where
  time_length : Nat
  data : XRDataset
  numpy_data : List (String × NDArray)
  data_vars : List String
  dims : List (PyKey × List String)
  constants : List String
  indices : List (Nat × Nat × Nat)
  std_attr : Option (List (String × NDArray))
deriving Inhabited

/-- The instance built when neither error of `ConstructError` fires:
field for field the assignments of `__init__` and `setup_indices`. -/
def buildTS (data : XRDataset) (tl : Nat) : XRTimeSeries :=
  { time_length := tl
    data := data
    numpy_data := data.data_vars.map fun kv => (kv.1, dataArrayOf data kv.2)
    data_vars := data.data_vars.map Prod.fst
    dims := data.data_vars.map fun kv => (PyKey.str kv.1, kv.2.dims)
    constants := (data.data_vars.filter fun kv => isConstantDims kv.2.dims).map Prod.fst
    indices := product3 (rangeStep (data.sizes "time") tl)
      (List.range (data.sizes "y")) (List.range (data.sizes "x"))
    std_attr := none }

/-- `XRTimeSeries(data, time_length)`: `__init__` computes the effective
window length, caches the raw arrays and the dimension tuples, classifies
the constant variables, and calls `setup_indices`, which enumerates
`list(product(range(0, len_t, time_length), range(0, len_y), range(0, len_x)))`
after checking `len_t % time_length == 0`.  An exception during
construction yields no object, modelled by `Except.error`. -/
def XRTimeSeries.make (data : XRDataset) (time_length : Option Nat) :
    Except ConstructError XRTimeSeries :=
  let tl := effTimeLength data time_length
  if tl = 0 then Except.error ConstructError.rangeStepZero
  else if data.sizes "time" % tl ≠ 0 then Except.error ConstructError.assertionError
  else Except.ok (buildTS data tl)

/-- `__len__`: `len(self.indices)`. -/
def XRTimeSeries.len (ts : XRTimeSeries) : Nat :=
  ts.indices.length

/-- Python list subscription `l[i]`: a negative index counts from the
end; an index out of `[-len(l), len(l))` raises `IndexError` (`none`). -/
def pyListGet {α : Type} (l : List α) (i : Int) : Option α :=
  let j : Int := if i < 0 then i + l.length else i
  if 0 ≤ j then l.get? j.toNat else none

/-- The per-variable body of `__getitem__` for a non-constant variable
`key` at triple `(t, y, x)`: pick the cached raw array, slice
`[t : t + time_length, :, y, x]` when the variable has a `z` dimension
and `[t : t + time_length, None, y, x]` otherwise, append two trailing
unit axes with `[:, :, np.newaxis, np.newaxis]`, and cast to
`np.float32`. -/
def XRTimeSeries.sampleVar (ts : XRTimeSeries) (t y x : Nat) (key : String) :
    Option NDArray := do
  let dims ← ts.dims.lookup (PyKey.str key)
  let data_array ← ts.numpy_data.lookup key
  let this_array_index :=
    if "z" ∈ dims then
      [IndexItem.slice t (t + ts.time_length), IndexItem.sliceAll,
        IndexItem.idx y, IndexItem.idx x]
    else
      [IndexItem.slice t (t + ts.time_length), IndexItem.newaxis,
        IndexItem.idx y, IndexItem.idx x]
  let sample ← data_array.index this_array_index
  let sample ← sample.index
    [IndexItem.sliceAll, IndexItem.sliceAll, IndexItem.newaxis, IndexItem.newaxis]
  pure (sample.astype NpDType.float32)

/-- The `for key in self.data_vars` loop of `__getitem__` restricted to
the keys it does not `continue` past, building `output_tensors`; a
failure of any per-variable step fails the whole call. -/
def XRTimeSeries.sampleAll (ts : XRTimeSeries) (t y x : Nat) :
    List String → Option (List (String × NDArray))
  | [] => some []
  | key :: keys => do
      let arr ← ts.sampleVar t y x key
      let rest ← ts.sampleAll t y x keys
      pure ((key, arr) :: rest)

/-- `__getitem__(i)`: resolve `t, y, x = self.indices[i]` (Python list
indexing), then collect one tensor per non-constant variable. -/
def XRTimeSeries.getItem (ts : XRTimeSeries) (i : Int) :
    Option (List (String × NDArray)) :=
  (pyListGet ts.indices i).bind fun tyx =>
    ts.sampleAll tyx.1 tyx.2.1 tyx.2.2
      (ts.data_vars.filter fun key => !ts.constants.contains key)

/-- The `time_dim` property: `self.dims[0][0]`.  `self.dims` is the dict
built in `__init__`, so the outer subscript is a dict lookup with the
integer key `0`; `none` models the `KeyError` when that key is absent. -/
def XRTimeSeries.time_dim (ts : XRTimeSeries) : Option String :=
  (ts.dims.lookup (PyKey.int 0)).bind fun t => t.get? 0

/-- A `torch.tensor(values, requires_grad=...)` call: same shape, dtype
and contents as the numpy input, with the gradient flag recorded. -/
structure TorchTensor where
  shape : List Nat
  dtype : NpDType
  requires_grad : Bool
  data : List Nat → ℚ

/-- `torch.tensor(a, requires_grad := rg)`. -/
def torchTensor (a : NDArray) (rg : Bool) : TorchTensor :=
  { shape := a.shape, dtype := a.dtype, requires_grad := rg, data := a.data }

/-- `.float()`: cast to single precision. -/
def TorchTensor.float (t : TorchTensor) : TorchTensor :=
  { t with dtype := NpDType.float32 }

/-- `torch_constants`: the dict comprehension
`{key: torch.tensor(self.data[key].values, requires_grad=False).float()
for key in self.constants}`.  Evaluating the comprehension first resolves
the global name `torch`, which the notebook never binds, so the call
raises `NameError` before any tensor is built. -/
def XRTimeSeries.torch_constants (ts : XRTimeSeries) :
    Except PyError (List (String × TorchTensor)) :=
  if "torch" ∈ importedNames then
    Except.ok (ts.constants.filterMap fun key =>
      (ts.data.data_vars.lookup key).map fun v =>
        (key, (torchTensor (dataArrayOf ts.data v) false).float))
  else Except.error (PyError.nameError "torch")

/-- `toolz.valmap(f, m)`: apply `f` to every value of a mapping. -/
def valmap {α β : Type} (f : α → β) (m : List (String × α)) : List (String × β) :=
  m.map fun kv => (kv.1, f kv.2)

/-- All multi-indices of a shape, used to model the reduction
`ndarray.max()`. -/
def allIndices : List Nat → List (List Nat)
  | [] => [[]]
  | n :: rest => (List.range n).flatMap fun i => (allIndices rest).map fun t => i :: t

/-- `ndarray.max()`: the largest element; `none` for an empty array
(numpy raises there). -/
def NDArray.amax (a : NDArray) : Option ℚ :=
  ((allIndices a.shape).map a.data).max?

/-- The `scale` property: `std = self.std` reads an attribute that no
method of the class ever assigns, raising `AttributeError` unless a
caller has injected one from outside; the returned expression then needs
the global `valmap`, which the notebook never imports. -/
def XRTimeSeries.scale (ts : XRTimeSeries) :
    Except PyError (List (String × Option ℚ)) :=
  match ts.std_attr with
  | none => Except.error (PyError.attributeError "std")
  | some std =>
      if "valmap" ∈ importedNames then Except.ok (valmap NDArray.amax std)
      else Except.error (PyError.nameError "valmap")

/-- Wellformedness used by the shape theorems: every variable either has
the full profile layout `(time, z, y, x)`, the surface layout
`(time, y, x)`, or is a constant (no overlap with `{time, x, y}`) —
the layouts the notebook's docstring assumes. -/
def goodVarDims (dims : List String) : Bool :=
  dims == ["time", "z", "y", "x"] || dims == ["time", "y", "x"] || isConstantDims dims

/-- All variables of the dataset have one of the assumed layouts. -/
def goodDims (d : XRDataset) : Bool :=
  d.data_vars.all fun kv => goodVarDims kv.2.dims

/-- Modelled from the spec: `sample_index` as the spec words it — the
ordered `(time_start, y, x)` triples, time-outer / y-middle / x-inner,
time advancing in strides of `time_length` through the `T / time_length`
window starts, `y` and `x` in strides of one. -/
def specSampleIndex (T tl Y X : Nat) : List (Nat × Nat × Nat) :=
  ((List.range (T / tl)).map fun k => k * tl).flatMap fun t =>
    (List.range Y).flatMap fun y => (List.range X).map fun x => (t, y, x)

/-- The toy dataset's 3-D variable `a` from `get_xarray_dataset`:
`np.ones((4, 4, 5, 2))` over `('time', 'z', 'y', 'x')`. -/
def exVarA : XRVariable :=
  { dims := ["time", "z", "y", "x"], dtype := NpDType.float64, values := fun _ => 1 }

/-- The toy dataset's 2-D variable `b`: `np.ones((4, 5, 2))` over
`('time', 'y', 'x')`. -/
def exVarB : XRVariable :=
  { dims := ["time", "y", "x"], dtype := NpDType.float64, values := fun _ => 1 }

/-- The notebook's toy dataset: `time=4, z=4, y=5, x=2` with variables
`a` and `b`. -/
def exampleDS : XRDataset :=
  { sizes := fun s =>
      if s = "time" then 4 else if s = "z" then 4
      else if s = "y" then 5 else if s = "x" then 2 else 0
    data_vars := [("a", exVarA), ("b", exVarB)] }

/-- The notebook's `XRTimeSeries(ds, time_length=4)`. -/
def exTS : XRTimeSeries :=
  match XRTimeSeries.make exampleDS (some 4) with
  | Except.ok ts => ts
  | Except.error _ => default

/-- A constant variable (dims `('z',)` only) used to exercise the
constant classification. -/
def exVarC : XRVariable :=
  { dims := ["z"], dtype := NpDType.float64, values := fun _ => 2 }

/-- The toy dataset extended with the constant variable `c`. -/
def exampleDS2 : XRDataset :=
  { exampleDS with data_vars := [("a", exVarA), ("b", exVarB), ("c", exVarC)] }

/-- `XRTimeSeries(exampleDS2, time_length=4)`. -/
def exTS2 : XRTimeSeries :=
  match XRTimeSeries.make exampleDS2 (some 4) with
  | Except.ok ts => ts
  | Except.error _ => default

/-!  ## Helper lemmas -/

theorem ceilDiv_of_dvd {T s : Nat} (hs : 0 < s) (hd : T % s = 0) :
    (T + s - 1) / s = T / s := by
  obtain ⟨q, rfl⟩ := Nat.dvd_of_mod_eq_zero hd
  have h1 : s * q + s - 1 = s * q + (s - 1) := by omega
  rw [h1, Nat.mul_add_div hs, Nat.div_eq_of_lt (by omega), Nat.add_zero,
    Nat.mul_div_cancel_left _ hs]

theorem rangeStep_eq {T s : Nat} (hs : 0 < s) (hd : T % s = 0) :
    rangeStep T s = (List.range (T / s)).map fun k => k * s := by
  unfold rangeStep
  rw [ceilDiv_of_dvd hs hd]

theorem length_rangeStep {T s : Nat} (hs : 0 < s) (hd : T % s = 0) :
    (rangeStep T s).length = T / s := by
  rw [rangeStep_eq hs hd]
  simp

theorem nodup_rangeStep {T s : Nat} (hs : 0 < s) : (rangeStep T s).Nodup := by
  unfold rangeStep
  exact List.Nodup.map (fun a b h => Nat.eq_of_mul_eq_mul_right hs h) (List.nodup_range _)

theorem mem_rangeStep {T s a : Nat} (hs : 0 < s) (hd : T % s = 0)
    (ha : a ∈ rangeStep T s) : a % s = 0 ∧ a + s ≤ T := by
  rw [rangeStep_eq hs hd] at ha
  simp only [List.mem_map, List.mem_range] at ha
  obtain ⟨k, hk, rfl⟩ := ha
  refine ⟨Nat.mul_mod_left k s, ?_⟩
  obtain ⟨q, rfl⟩ := Nat.dvd_of_mod_eq_zero hd
  rw [Nat.mul_div_cancel_left q hs] at hk
  have h2 : (k + 1) * s ≤ q * s := Nat.mul_le_mul_right s hk
  calc k * s + s = (k + 1) * s := by ring
    _ ≤ q * s := h2
    _ = s * q := by ring

theorem product3_eq (ts ys xs : List Nat) : product3 ts ys xs = ts ×ˢ (ys ×ˢ xs) := by
  simp [product3, SProd.sprod, List.product, List.map_flatMap, List.map_map,
    Function.comp_def]

theorem mem_product3 {ts ys xs : List Nat} {p : Nat × Nat × Nat} :
    p ∈ product3 ts ys xs ↔ p.1 ∈ ts ∧ p.2.1 ∈ ys ∧ p.2.2 ∈ xs := by
  obtain ⟨t, y, x⟩ := p
  rw [product3_eq]
  simp

theorem length_product3 (ts ys xs : List Nat) :
    (product3 ts ys xs).length = ts.length * (ys.length * xs.length) := by
  rw [product3_eq]
  simp [List.length_product]

theorem nodup_product3 {ts ys xs : List Nat} (h1 : ts.Nodup) (h2 : ys.Nodup)
    (h3 : xs.Nodup) : (product3 ts ys xs).Nodup := by
  rw [product3_eq]
  exact h1.product (h2.product h3)

theorem make_ok_iff {d : XRDataset} {tlArg : Option Nat} {ts : XRTimeSeries} :
    XRTimeSeries.make d tlArg = Except.ok ts ↔
      effTimeLength d tlArg ≠ 0 ∧ d.sizes "time" % effTimeLength d tlArg = 0 ∧
        ts = buildTS d (effTimeLength d tlArg) := by
  unfold XRTimeSeries.make
  by_cases h0 : effTimeLength d tlArg = 0
  · simp [h0]
  · by_cases h1 : d.sizes "time" % effTimeLength d tlArg = 0
    · simp [h0, h1, eq_comm]
    · simp [h0, h1]

theorem keys_unique {α : Type} {l : List (String × α)} {k : String} {v w : α}
    (hnd : (l.map Prod.fst).Nodup) (h1 : (k, v) ∈ l) (h2 : (k, w) ∈ l) : v = w := by
  induction l with
  | nil => cases h1
  | cons hd tl ih =>
    obtain ⟨k1, v1⟩ := hd
    simp only [List.map_cons, List.nodup_cons] at hnd
    rcases List.mem_cons.mp h1 with h1a | h1b <;> rcases List.mem_cons.mp h2 with h2a | h2b
    · rw [Prod.mk.injEq] at h1a h2a
      rw [h1a.2, h2a.2]
    · exfalso
      apply hnd.1
      rw [Prod.mk.injEq] at h1a
      rw [← h1a.1]
      exact List.mem_map.mpr ⟨(k, w), h2b, rfl⟩
    · exfalso
      apply hnd.1
      rw [Prod.mk.injEq] at h2a
      rw [← h2a.1]
      exact List.mem_map.mpr ⟨(k, v), h1b, rfl⟩
    · exact ih hnd.2 h1b h2b

theorem lookup_map_pair {α β γ : Type} [BEq γ] [LawfulBEq γ] {l : List (String × α)}
    {k : String} {v : α} (g : String → γ) (hg : ∀ a b, g a = g b → a = b)
    (f : String → α → β) (hnd : (l.map Prod.fst).Nodup) (hm : (k, v) ∈ l) :
    (l.map fun kv => (g kv.1, f kv.1 kv.2)).lookup (g k) = some (f k v) := by
  induction l with
  | nil => cases hm
  | cons hd tl ih =>
    obtain ⟨k1, v1⟩ := hd
    simp only [List.map_cons, List.nodup_cons] at hnd
    simp only [List.map_cons, List.lookup]
    by_cases hk : k = k1
    · subst hk
      have hv1 : v = v1 := by
        rcases List.mem_cons.mp hm with h | h
        · rw [Prod.mk.injEq] at h
          exact h.2
        · exact absurd (List.mem_map.mpr ⟨(k, v), h, rfl⟩) hnd.1
      simp [hv1]
    · have hne : (g k == g k1) = false := by
        rw [beq_eq_false_iff_ne]
        intro h
        exact hk (hg _ _ h)
      rw [hne]
      have hm2 : (k, v) ∈ tl := by
        rcases List.mem_cons.mp hm with h | h
        · rw [Prod.mk.injEq] at h
          exact absurd h.1 hk
        · exact h
      exact ih hnd.2 hm2

theorem lookup_int_none {β : Type} {l : List (String × β)} (g : String × β → List String)
    (n : Int) : (l.map fun kv => (PyKey.str kv.1, g kv)).lookup (PyKey.int n) = none := by
  induction l with
  | nil => rfl
  | cons hd tl ih =>
    simp only [List.map_cons, List.lookup]
    have hne : (PyKey.int n == PyKey.str hd.1) = false := by
      rw [beq_eq_false_iff_ne]
      intro h
      cases h
    rw [hne]
    exact ih

theorem lookup_none_of_not_mem {β : Type} {l : List (String × β)} {k : String}
    (h : k ∉ l.map Prod.fst) : l.lookup k = none := by
  induction l with
  | nil => rfl
  | cons hd tl ih =>
    simp only [List.map_cons, List.mem_cons, not_or] at h
    simp only [List.lookup]
    have hne : (k == hd.1) = false := by
      rw [beq_eq_false_iff_ne]
      exact h.1
    rw [hne]
    exact ih h.2

theorem get?_isSome_iff {α : Type} {l : List α} {n : Nat} :
    (l.get? n).isSome ↔ n < l.length := by
  induction l generalizing n with
  | nil => cases n <;> simp [List.get?]
  | cons a t ih =>
    cases n with
    | zero => simp [List.get?]
    | succ m =>
      simp only [List.get?, List.length_cons]
      rw [ih]
      omega

theorem pyListGet_natCast {α : Type} {l : List α} {n : Nat} :
    pyListGet l (n : Int) = l.get? n := by
  unfold pyListGet
  have h1 : ¬((n : Int) < 0) := by omega
  have h2 : (0 : Int) ≤ (n : Int) := by omega
  simp [h1, h2]

theorem pyListGet_isSome_iff {α : Type} {l : List α} {i : Int} :
    (pyListGet l i).isSome ↔ -(l.length : Int) ≤ i ∧ i < l.length := by
  unfold pyListGet
  by_cases h : i < 0
  · simp only [h, if_true]
    by_cases h2 : (0 : Int) ≤ i + l.length
    · simp only [h2, if_true]
      rw [get?_isSome_iff]
      omega
    · simp only [h2, if_false]
      simp only [Option.isSome_none, Bool.false_eq_true, false_iff]
      omega
  · simp only [h, if_false]
    have h2 : (0 : Int) ≤ i := by omega
    simp only [h2, if_true]
    rw [get?_isSome_iff]
    omega

theorem pyListGet_mem {α : Type} {l : List α} {i : Int} {a : α}
    (h : pyListGet l i = some a) : a ∈ l := by
  unfold pyListGet at h
  by_cases h1 : i < 0 <;> simp only [h1, if_true, if_false] at h
  · by_cases h2 : (0 : Int) ≤ i + l.length
    · simp only [h2, if_true] at h
      exact List.get?_mem h
    · simp [h2] at h
  · by_cases h2 : (0 : Int) ≤ i
    · simp only [h2, if_true] at h
      exact List.get?_mem h
    · simp [h2] at h

theorem sliceLen_full {t L T : Nat} (h : t + L ≤ T) : sliceLen t (t + L) T = L := by
  unfold sliceLen
  omega

theorem index_shape {a : NDArray} {items : List IndexItem} {s : List Nat}
    (h : applyIndexShape items a.shape = some s) :
    ∃ b, a.index items = some b ∧ b.shape = s ∧ b.dtype = a.dtype := by
  refine ⟨⟨s, a.dtype, fun out => a.data (applyIndexMap items out)⟩, ?_, rfl, rfl⟩
  simp [NDArray.index, h]

theorem applyShape_profile {t L T Z Y X y x : Nat} (ht : t + L ≤ T) (hy : y < Y)
    (hx : x < X) :
    applyIndexShape [IndexItem.slice t (t + L), IndexItem.sliceAll,
      IndexItem.idx y, IndexItem.idx x] [T, Z, Y, X] = some [L, Z] := by
  simp [applyIndexShape, hy, hx, sliceLen_full ht]

theorem applyShape_surface {t L T Y X y x : Nat} (ht : t + L ≤ T) (hy : y < Y)
    (hx : x < X) :
    applyIndexShape [IndexItem.slice t (t + L), IndexItem.newaxis,
      IndexItem.idx y, IndexItem.idx x] [T, Y, X] = some [L, 1] := by
  simp [applyIndexShape, hy, hx, sliceLen_full ht]

theorem applyShape_trailing (L Z : Nat) :
    applyIndexShape [IndexItem.sliceAll, IndexItem.sliceAll, IndexItem.newaxis,
      IndexItem.newaxis] [L, Z] = some [L, Z, 1, 1] := by
  simp [applyIndexShape]

theorem isConstantDims_iff_not_mem {dims : List String} :
    isConstantDims dims = true ↔ "time" ∉ dims ∧ "x" ∉ dims ∧ "y" ∉ dims := by
  unfold isConstantDims
  by_cases hx : "x" ∈ dims <;> by_cases hy : "y" ∈ dims <;> by_cases ht : "time" ∈ dims <;>
    simp [List.filter, hx, hy, ht]

theorem isConstantDims_spec {dims : List String} :
    isConstantDims dims = true ↔ ∀ s ∈ dims, ¬(s = "time" ∨ s = "x" ∨ s = "y") := by
  rw [isConstantDims_iff_not_mem]
  constructor
  · rintro ⟨h1, h2, h3⟩ s hs (rfl | rfl | rfl)
    · exact h1 hs
    · exact h2 hs
    · exact h3 hs
  · intro h
    exact ⟨fun hs => h _ hs (Or.inl rfl), fun hs => h _ hs (Or.inr (Or.inl rfl)),
      fun hs => h _ hs (Or.inr (Or.inr rfl))⟩

theorem goodDims_spec {d : XRDataset} (hg : goodDims d = true) {k : String}
    {v : XRVariable} (hm : (k, v) ∈ d.data_vars) (hc : isConstantDims v.dims = false) :
    v.dims = ["time", "z", "y", "x"] ∨ v.dims = ["time", "y", "x"] := by
  unfold goodDims at hg
  rw [List.all_eq_true] at hg
  have h2 := hg (k, v) hm
  unfold goodVarDims at h2
  simp only [Bool.or_eq_true, beq_iff_eq] at h2
  rcases h2 with (h | h) | h
  · exact Or.inl h
  · exact Or.inr h
  · rw [hc] at h
    cases h

theorem buildTS_dims_lookup {d : XRDataset} {tl : Nat} {k : String} {v : XRVariable}
    (hnd : (d.data_vars.map Prod.fst).Nodup) (hm : (k, v) ∈ d.data_vars) :
    (buildTS d tl).dims.lookup (PyKey.str k) = some v.dims := by
  have h := lookup_map_pair (l := d.data_vars) PyKey.str
    (fun _ _ hab => PyKey.str.inj hab) (fun _ w => w.dims) hnd hm
  simpa [buildTS] using h

theorem buildTS_numpy_lookup {d : XRDataset} {tl : Nat} {k : String} {v : XRVariable}
    (hnd : (d.data_vars.map Prod.fst).Nodup) (hm : (k, v) ∈ d.data_vars) :
    (buildTS d tl).numpy_data.lookup k = some (dataArrayOf d v) := by
  have h := lookup_map_pair (l := d.data_vars) (fun s => s)
    (fun _ _ hab => hab) (fun _ w => dataArrayOf d w) hnd hm
  simpa [buildTS] using h

theorem mem_indices_bounds {d : XRDataset} {tl : Nat} (hs : 0 < tl)
    (hd : d.sizes "time" % tl = 0) {p : Nat × Nat × Nat}
    (hp : p ∈ (buildTS d tl).indices) :
    p.1 % tl = 0 ∧ p.1 + tl ≤ d.sizes "time" ∧ p.2.1 < d.sizes "y" ∧
      p.2.2 < d.sizes "x" := by
  have hp2 : p ∈ product3 (rangeStep (d.sizes "time") tl)
      (List.range (d.sizes "y")) (List.range (d.sizes "x")) := hp
  rw [mem_product3] at hp2
  obtain ⟨h1, h2, h3⟩ := hp2
  have hb := mem_rangeStep hs hd h1
  exact ⟨hb.1, hb.2, List.mem_range.mp h2, List.mem_range.mp h3⟩

theorem sampleVar_shape {d : XRDataset} {tl : Nat} {k : String} {v : XRVariable}
    {t y x : Nat} (hnd : (d.data_vars.map Prod.fst).Nodup) (hm : (k, v) ∈ d.data_vars)
    (hdims : v.dims = ["time", "z", "y", "x"] ∨ v.dims = ["time", "y", "x"])
    (ht : t + tl ≤ d.sizes "time") (hy : y < d.sizes "y") (hx : x < d.sizes "x") :
    ∃ arr, (buildTS d tl).sampleVar t y x k = some arr ∧
      arr.dtype = NpDType.float32 ∧
      arr.shape = [tl, if "z" ∈ v.dims then d.sizes "z" else 1, 1, 1] := by
  have h1 := @buildTS_dims_lookup d tl k v hnd hm
  have h2 := @buildTS_numpy_lookup d tl k v hnd hm
  have htl : (buildTS d tl).time_length = tl := rfl
  rcases hdims with hdv | hdv
  · have hz : "z" ∈ v.dims := by rw [hdv]; simp
    have hsh1 : applyIndexShape [IndexItem.slice t (t + tl), IndexItem.sliceAll,
        IndexItem.idx y, IndexItem.idx x] (dataArrayOf d v).shape =
        some [tl, d.sizes "z"] := by
      have hshape : (dataArrayOf d v).shape =
          [d.sizes "time", d.sizes "z", d.sizes "y", d.sizes "x"] := by
        simp [dataArrayOf, hdv]
      rw [hshape]
      exact applyShape_profile ht hy hx
    obtain ⟨b1, hb1, hb1s, hb1d⟩ := index_shape hsh1
    have hsh2 : applyIndexShape [IndexItem.sliceAll, IndexItem.sliceAll,
        IndexItem.newaxis, IndexItem.newaxis] b1.shape =
        some [tl, d.sizes "z", 1, 1] := by
      rw [hb1s]
      exact applyShape_trailing tl (d.sizes "z")
    obtain ⟨b2, hb2, hb2s, hb2d⟩ := index_shape hsh2
    refine ⟨b2.astype NpDType.float32, ?_, rfl, ?_⟩
    · unfold XRTimeSeries.sampleVar
      rw [h1]
      simp only [Option.bind_eq_bind, Option.some_bind]
      rw [h2]
      simp only [Option.bind_eq_bind, Option.some_bind, htl]
      rw [if_pos hz, hb1]
      simp only [Option.bind_eq_bind, Option.some_bind]
      rw [hb2]
      rfl
    · show b2.shape = _
      rw [hb2s, if_pos hz]
  · have hz : ¬("z" ∈ v.dims) := by rw [hdv]; simp
    have hsh1 : applyIndexShape [IndexItem.slice t (t + tl), IndexItem.newaxis,
        IndexItem.idx y, IndexItem.idx x] (dataArrayOf d v).shape =
        some [tl, 1] := by
      have hshape : (dataArrayOf d v).shape =
          [d.sizes "time", d.sizes "y", d.sizes "x"] := by
        simp [dataArrayOf, hdv]
      rw [hshape]
      exact applyShape_surface ht hy hx
    obtain ⟨b1, hb1, hb1s, hb1d⟩ := index_shape hsh1
    have hsh2 : applyIndexShape [IndexItem.sliceAll, IndexItem.sliceAll,
        IndexItem.newaxis, IndexItem.newaxis] b1.shape =
        some [tl, 1, 1, 1] := by
      rw [hb1s]
      exact applyShape_trailing tl 1
    obtain ⟨b2, hb2, hb2s, hb2d⟩ := index_shape hsh2
    refine ⟨b2.astype NpDType.float32, ?_, rfl, ?_⟩
    · unfold XRTimeSeries.sampleVar
      rw [h1]
      simp only [Option.bind_eq_bind, Option.some_bind]
      rw [h2]
      simp only [Option.bind_eq_bind, Option.some_bind, htl]
      rw [if_neg hz, hb1]
      simp only [Option.bind_eq_bind, Option.some_bind]
      rw [hb2]
      rfl
    · show b2.shape = _
      rw [hb2s, if_neg hz]

theorem sampleAll_isSome {ts : XRTimeSeries} {t y x : Nat} {keys : List String}
    (h : ∀ k ∈ keys, (ts.sampleVar t y x k).isSome = true) :
    (ts.sampleAll t y x keys).isSome = true := by
  induction keys with
  | nil => rfl
  | cons key rest ih =>
    obtain ⟨arr, harr⟩ := Option.isSome_iff_exists.mp (h key (List.mem_cons_self key rest))
    obtain ⟨out, hout⟩ := Option.isSome_iff_exists.mp
      (ih fun k hk => h k (List.mem_cons_of_mem _ hk))
    simp [XRTimeSeries.sampleAll, harr, hout]

theorem sampleAll_some_keys {ts : XRTimeSeries} {t y x : Nat} {keys : List String}
    {out : List (String × NDArray)} (h : ts.sampleAll t y x keys = some out) :
    out.map Prod.fst = keys := by
  induction keys generalizing out with
  | nil =>
    simp only [XRTimeSeries.sampleAll, Option.some.injEq] at h
    rw [← h]
    rfl
  | cons key rest ih =>
    unfold XRTimeSeries.sampleAll at h
    cases hv : ts.sampleVar t y x key with
    | none => rw [hv] at h; simp at h
    | some arr =>
      rw [hv] at h
      simp only [Option.bind_eq_bind, Option.some_bind] at h
      cases hr : ts.sampleAll t y x rest with
      | none => rw [hr] at h; simp at h
      | some rest_out =>
        rw [hr] at h
        simp only [Option.bind_eq_bind, Option.some_bind, Option.pure_def, Option.some.injEq] at h
        rw [← h]
        simp [ih hr]

theorem sampleAll_lookup {ts : XRTimeSeries} {t y x : Nat} {keys : List String}
    {out : List (String × NDArray)} {k : String} {arr : NDArray}
    (hnd : keys.Nodup) (h : ts.sampleAll t y x keys = some out) (hk : k ∈ keys)
    (ha : ts.sampleVar t y x k = some arr) : out.lookup k = some arr := by
  induction keys generalizing out with
  | nil => cases hk
  | cons key rest ih =>
    unfold XRTimeSeries.sampleAll at h
    cases hv : ts.sampleVar t y x key with
    | none => rw [hv] at h; simp at h
    | some arr0 =>
      rw [hv] at h
      simp only [Option.bind_eq_bind, Option.some_bind] at h
      cases hr : ts.sampleAll t y x rest with
      | none => rw [hr] at h; simp at h
      | some rest_out =>
        rw [hr] at h
        simp only [Option.bind_eq_bind, Option.some_bind, Option.pure_def, Option.some.injEq] at h
        rw [← h]
        by_cases hkk : k = key
        · subst hkk
          have harr : arr0 = arr := by
            rw [hv] at ha
            exact (Option.some.injEq _ _).mp ha
          simp [List.lookup, harr]
        · have hne : (k == key) = false := by
            rw [beq_eq_false_iff_ne]
            exact hkk
          simp only [List.lookup, hne]
          have hk2 : k ∈ rest := by
            rcases List.mem_cons.mp hk with h | h
            · exact absurd h hkk
            · exact h
          exact ih (List.Nodup.of_cons hnd) hr hk2

theorem mem_constants_iff {d : XRDataset} {tl : Nat} {key : String} :
    key ∈ (buildTS d tl).constants ↔
      ∃ v, (key, v) ∈ d.data_vars ∧ isConstantDims v.dims = true := by
  show key ∈ (d.data_vars.filter fun kv => isConstantDims kv.2.dims).map Prod.fst ↔ _
  rw [List.mem_map]
  constructor
  · rintro ⟨⟨k1, v1⟩, hmem, rfl⟩
    rw [List.mem_filter] at hmem
    exact ⟨v1, hmem.1, hmem.2⟩
  · rintro ⟨v, hmem, hconst⟩
    exact ⟨(key, v), List.mem_filter.mpr ⟨hmem, hconst⟩, rfl⟩

theorem mem_nonconst_iff {d : XRDataset} {tl : Nat} {key : String}
    (hnd : (d.data_vars.map Prod.fst).Nodup) :
    key ∈ ((buildTS d tl).data_vars.filter fun k =>
        !(buildTS d tl).constants.contains k) ↔
      ∃ v, (key, v) ∈ d.data_vars ∧ isConstantDims v.dims = false := by
  rw [List.mem_filter]
  constructor
  · rintro ⟨hmem, hnc⟩
    have hmem2 : key ∈ d.data_vars.map Prod.fst := hmem
    rw [List.mem_map] at hmem2
    obtain ⟨⟨k1, v1⟩, hkv, rfl⟩ := hmem2
    refine ⟨v1, hkv, ?_⟩
    by_contra hc
    have hc2 : isConstantDims v1.dims = true := by
      cases h : isConstantDims v1.dims
      · exact absurd h hc
      · rfl
    have hmemc : k1 ∈ (buildTS d tl).constants := mem_constants_iff.mpr ⟨v1, hkv, hc2⟩
    rw [Bool.not_eq_true'] at hnc
    exact absurd hmemc (by simpa using hnc)
  · rintro ⟨v, hmem, hconst⟩
    refine ⟨List.mem_map.mpr ⟨(key, v), hmem, rfl⟩, ?_⟩
    rw [Bool.not_eq_true']
    have hnotmem : key ∉ (buildTS d tl).constants := by
      intro hmemc
      obtain ⟨w, hw, hwc⟩ := mem_constants_iff.mp hmemc
      rw [keys_unique hnd hmem hw] at hconst
      rw [hwc] at hconst
      cases hconst
    simpa using hnotmem

theorem nonconst_nodup {d : XRDataset} {tl : Nat}
    (hnd : (d.data_vars.map Prod.fst).Nodup) :
    ((buildTS d tl).data_vars.filter fun k =>
      !(buildTS d tl).constants.contains k).Nodup := by
  have h : ((buildTS d tl).data_vars : List String).Nodup := hnd
  exact List.Nodup.filter _ h

theorem sampleAll_filtered_isSome {d : XRDataset} {tl : Nat}
    (hnd : (d.data_vars.map Prod.fst).Nodup) (hgd : goodDims d = true)
    (hmod : d.sizes "time" % tl = 0) (h0 : 0 < tl) {p : Nat × Nat × Nat}
    (hp : p ∈ (buildTS d tl).indices) :
    ((buildTS d tl).sampleAll p.1 p.2.1 p.2.2
      ((buildTS d tl).data_vars.filter fun k =>
        !(buildTS d tl).constants.contains k)).isSome = true := by
  obtain ⟨hpm, hpt, hpy, hpx⟩ := mem_indices_bounds h0 hmod hp
  apply sampleAll_isSome
  intro k hk
  obtain ⟨v, hv, hc⟩ := (mem_nonconst_iff hnd).mp hk
  obtain ⟨arr, harr, _, _⟩ :=
    sampleVar_shape hnd hv (goodDims_spec hgd hv hc) hpt hpy hpx
  rw [harr]
  rfl

/-!  ## Claim theorems -/

/-- Claim C1: for every valid sample index and every time-varying variable,
retrieval returns a 4-axis single-precision array — shape
`(time_length, z_extent, 1, 1)` when the variable declares `z`, otherwise
`(time_length, 1, 1, 1)`; the leading axis is `time_length` and the
trailing two axes have length 1. -/
theorem c1_sample_shape (d : XRDataset) (tlArg : Option Nat) (ts : XRTimeSeries)
    (hmk : XRTimeSeries.make d tlArg = Except.ok ts)
    (hnd : (d.data_vars.map Prod.fst).Nodup) (hgd : goodDims d = true)
    (i : Nat) (hi : i < ts.len) (key : String) (v : XRVariable)
    (hv : (key, v) ∈ d.data_vars) (htv : isConstantDims v.dims = false) :
    ∃ out arr, ts.getItem (i : Int) = some out ∧ out.lookup key = some arr ∧
      arr.dtype = NpDType.float32 ∧
      arr.shape = [ts.time_length, if "z" ∈ v.dims then d.sizes "z" else 1, 1, 1] ∧
      arr.shape.length = 4 := by
  obtain ⟨h0, hmod, hts⟩ := make_ok_iff.mp hmk
  subst hts
  have hi2 : i < (buildTS d (effTimeLength d tlArg)).indices.length := hi
  have hget := List.get?_eq_get hi2
  set p := (buildTS d (effTimeLength d tlArg)).indices.get ⟨i, hi2⟩ with hp
  have hpmem : p ∈ (buildTS d (effTimeLength d tlArg)).indices := List.get_mem _ _ _
  have hgi : (buildTS d (effTimeLength d tlArg)).getItem (i : Int) =
      (buildTS d (effTimeLength d tlArg)).sampleAll p.1 p.2.1 p.2.2
        ((buildTS d (effTimeLength d tlArg)).data_vars.filter fun k =>
          !(buildTS d (effTimeLength d tlArg)).constants.contains k) := by
    unfold XRTimeSeries.getItem
    rw [pyListGet_natCast, hget]
    rfl
  have hsome := sampleAll_filtered_isSome hnd hgd hmod (Nat.pos_of_ne_zero h0) hpmem
  obtain ⟨out, hout⟩ := Option.isSome_iff_exists.mp hsome
  obtain ⟨hm0, hpt, hpy, hpx⟩ :=
    mem_indices_bounds (Nat.pos_of_ne_zero h0) hmod hpmem
  obtain ⟨arr, harr, hdt, hshape⟩ :=
    sampleVar_shape hnd hv (goodDims_spec hgd hv htv) hpt hpy hpx
  refine ⟨out, arr, by rw [hgi, hout], ?_, hdt, ?_, ?_⟩
  · have hkf : key ∈ ((buildTS d (effTimeLength d tlArg)).data_vars.filter fun k =>
        !(buildTS d (effTimeLength d tlArg)).constants.contains k) :=
      (mem_nonconst_iff hnd).mpr ⟨v, hv, htv⟩
    exact sampleAll_lookup (nonconst_nodup hnd) hout hkf harr
  · exact hshape
  · rw [hshape]
    rfl

/-- Witness for C1: the notebook's `indexer[0]['a']` has shape
`(4, 4, 1, 1)` and dtype float32. -/
theorem c1_sample_shape_witness :
    ∃ out arr, exTS.getItem ((0 : Nat) : Int) = some out ∧
      out.lookup "a" = some arr ∧ arr.dtype = NpDType.float32 ∧
      arr.shape = [exTS.time_length,
        if "z" ∈ exVarA.dims then exampleDS.sizes "z" else 1, 1, 1] ∧
      arr.shape.length = 4 :=
  c1_sample_shape exampleDS (some 4) exTS rfl (by decide) (by decide) 0 (by decide)
    "a" exVarA (List.mem_cons_self _ _) (by decide)

/-- Claim C2: for a constructed indexer with window `tl` dividing the time
extent, the sample count is `(T / tl) * (Y * X)` and `sample_index` is
exactly the spec's enumeration — time-outer / y-middle / x-inner, time in
strides of `tl`, all triples unique and in bounds. -/
theorem c2_sample_index (d : XRDataset) (tl : Nat) (ts : XRTimeSeries) (h0 : 0 < tl)
    (hmk : XRTimeSeries.make d (some tl) = Except.ok ts) :
    ts.len = (d.sizes "time" / tl) * (d.sizes "y" * d.sizes "x") ∧
    ts.indices = specSampleIndex (d.sizes "time") tl (d.sizes "y") (d.sizes "x") ∧
    ts.indices.Nodup ∧
    (∀ p ∈ ts.indices, p.1 % tl = 0 ∧ p.1 + tl ≤ d.sizes "time" ∧
      p.2.1 < d.sizes "y" ∧ p.2.2 < d.sizes "x") := by
  obtain ⟨h0e, hmod, hts⟩ := make_ok_iff.mp hmk
  have htle : effTimeLength d (some tl) = tl := by
    show (if tl = 0 then d.sizes "time" else tl) = tl
    rw [if_neg (by omega)]
  rw [htle] at hmod hts
  subst hts
  refine ⟨?_, ?_, ?_, ?_⟩
  · show (product3 (rangeStep (d.sizes "time") tl) (List.range (d.sizes "y"))
      (List.range (d.sizes "x"))).length = _
    rw [length_product3, length_rangeStep h0 hmod]
    simp
  · show product3 (rangeStep (d.sizes "time") tl) (List.range (d.sizes "y"))
      (List.range (d.sizes "x")) = _
    unfold specSampleIndex
    rw [rangeStep_eq h0 hmod]
    rfl
  · exact nodup_product3 (nodup_rangeStep h0) (List.nodup_range _) (List.nodup_range _)
  · intro p hp
    exact mem_indices_bounds h0 hmod hp

/-- Witness for C2 at the notebook dataset: `T=4, Y=5, X=2, tl=4`,
ten samples. -/
theorem c2_sample_index_witness :
    exTS.len = (exampleDS.sizes "time" / 4) * (exampleDS.sizes "y" * exampleDS.sizes "x") ∧
    exTS.indices = specSampleIndex (exampleDS.sizes "time") 4
      (exampleDS.sizes "y") (exampleDS.sizes "x") ∧
    exTS.indices.Nodup ∧
    (∀ p ∈ exTS.indices, p.1 % 4 = 0 ∧ p.1 + 4 ≤ exampleDS.sizes "time" ∧
      p.2.1 < exampleDS.sizes "y" ∧ p.2.2 < exampleDS.sizes "x") :=
  c2_sample_index exampleDS 4 exTS (by decide) rfl

/-- Counterexample to claim C3 as stated: `time_length=0` does not evenly
divide the time extent 4, yet construction succeeds (the falsy `0` is
replaced by the full time extent before the divisibility assertion). -/
theorem c3_counterexample :
    exampleDS.sizes "time" % 0 ≠ 0 ∧ ¬(0 ∣ exampleDS.sizes "time") ∧
      (XRTimeSeries.make exampleDS (some 0)).toOption.isSome = true := by
  refine ⟨by decide, ?_, rfl⟩
  intro hdvd
  have h4 : exampleDS.sizes "time" = 4 := rfl
  rw [h4, Nat.zero_dvd] at hdvd
  cases hdvd

/-- Claim C3 amended: for every explicitly supplied positive `time_length`
that does not evenly divide the time extent, construction fails with the
assertion (configuration) error and produces no indexer. -/
theorem c3_assertion_error (d : XRDataset) (tl : Nat) (h0 : 0 < tl)
    (hndiv : d.sizes "time" % tl ≠ 0) :
    XRTimeSeries.make d (some tl) = Except.error ConstructError.assertionError := by
  have htle : effTimeLength d (some tl) = tl := by
    show (if tl = 0 then d.sizes "time" else tl) = tl
    rw [if_neg (by omega)]
  unfold XRTimeSeries.make
  rw [htle, if_neg (by omega), if_pos hndiv]

/-- Witness for the amended C3: the spec's own example `time=4,
time_length=3`. -/
theorem c3_assertion_error_witness :
    XRTimeSeries.make exampleDS (some 3) = Except.error ConstructError.assertionError :=
  c3_assertion_error exampleDS 3 (by decide) (by decide)

/-- Counterexample to claim C4 as stated: index `-1` lies outside
`[0, len)` (`len = 10`), yet retrieval succeeds — Python list indexing
resolves negative indices from the end. -/
theorem c4_counterexample :
    exTS.len = 10 ∧ ((-1 : Int) < 0 ∨ (10 : Int) ≤ -1) ∧
      (exTS.getItem (-1)).isSome = true := by
  exact ⟨rfl, Or.inl (by decide), rfl⟩

/-- Claim C4 amended: retrieval succeeds exactly for integer indices in
`[-len(sample_index), len(sample_index))`; indices outside that interval
fail with an out-of-bounds error, and negative in-range indices resolve
from the end. -/
theorem c4_retrieval_bounds (d : XRDataset) (tlArg : Option Nat) (ts : XRTimeSeries)
    (hmk : XRTimeSeries.make d tlArg = Except.ok ts)
    (hnd : (d.data_vars.map Prod.fst).Nodup) (hgd : goodDims d = true) (i : Int) :
    (ts.getItem i).isSome = true ↔ (-(ts.len : Int) ≤ i ∧ i < ts.len) := by
  obtain ⟨h0, hmod, hts⟩ := make_ok_iff.mp hmk
  subst hts
  constructor
  · intro hs
    unfold XRTimeSeries.getItem at hs
    cases hpl : pyListGet (buildTS d (effTimeLength d tlArg)).indices i with
    | none => rw [hpl] at hs; simp [Option.bind] at hs
    | some p => exact pyListGet_isSome_iff.mp (by rw [hpl]; rfl)
  · intro hb
    have hpls : (pyListGet (buildTS d (effTimeLength d tlArg)).indices i).isSome = true :=
      pyListGet_isSome_iff.mpr hb
    obtain ⟨p, hpl⟩ := Option.isSome_iff_exists.mp hpls
    have hpmem := pyListGet_mem hpl
    have hgi : (buildTS d (effTimeLength d tlArg)).getItem i =
        (buildTS d (effTimeLength d tlArg)).sampleAll p.1 p.2.1 p.2.2
          ((buildTS d (effTimeLength d tlArg)).data_vars.filter fun k =>
            !(buildTS d (effTimeLength d tlArg)).constants.contains k) := by
      unfold XRTimeSeries.getItem
      rw [hpl]
      rfl
    rw [hgi]
    exact sampleAll_filtered_isSome hnd hgd hmod (Nat.pos_of_ne_zero h0) hpmem

/-- Witness for the amended C4 at index 3 of the notebook indexer. -/
theorem c4_retrieval_bounds_witness :
    (exTS.getItem 3).isSome = true ↔ (-(exTS.len : Int) ≤ 3 ∧ (3 : Int) < exTS.len) :=
  c4_retrieval_bounds exampleDS (some 4) exTS rfl (by decide) (by decide) 3

/-- Claim C5: a variable is classified constant exactly when its dimension
set does not meet `{time, x, y}`, and no constant variable ever appears in
a retrieved sample. -/
theorem c5_constant_classification (d : XRDataset) (tlArg : Option Nat)
    (ts : XRTimeSeries) (hmk : XRTimeSeries.make d tlArg = Except.ok ts) :
    (∀ key, key ∈ ts.constants ↔
      ∃ v, (key, v) ∈ d.data_vars ∧ ∀ s ∈ v.dims, ¬(s = "time" ∨ s = "x" ∨ s = "y")) ∧
    (∀ (i : Int) (out : List (String × NDArray)), ts.getItem i = some out →
      ∀ key ∈ ts.constants, out.lookup key = none) := by
  obtain ⟨h0, hmod, hts⟩ := make_ok_iff.mp hmk
  subst hts
  constructor
  · intro key
    rw [mem_constants_iff]
    constructor
    · rintro ⟨v, hv, hc⟩
      exact ⟨v, hv, isConstantDims_spec.mp hc⟩
    · rintro ⟨v, hv, hc⟩
      exact ⟨v, hv, isConstantDims_spec.mpr hc⟩
  · intro i out hout key hkey
    unfold XRTimeSeries.getItem at hout
    cases hpl : pyListGet (buildTS d (effTimeLength d tlArg)).indices i with
    | none => rw [hpl] at hout; simp [Option.bind] at hout
    | some p =>
      rw [hpl] at hout
      have hout2 : (buildTS d (effTimeLength d tlArg)).sampleAll p.1 p.2.1 p.2.2
          ((buildTS d (effTimeLength d tlArg)).data_vars.filter fun k =>
            !(buildTS d (effTimeLength d tlArg)).constants.contains k) = some out := hout
      have hkeys := sampleAll_some_keys hout2
      apply lookup_none_of_not_mem
      rw [hkeys]
      intro hkf
      rw [List.mem_filter] at hkf
      have hnc := hkf.2
      rw [Bool.not_eq_true'] at hnc
      exact absurd hkey (by simpa using hnc)

/-- Witness for C5 at the toy dataset extended with the constant `c`
(dims `('z',)`): the classification matches and `c` never appears in
samples. -/
theorem c5_constant_classification_witness :
    (∀ key, key ∈ exTS2.constants ↔
      ∃ v, (key, v) ∈ exampleDS2.data_vars ∧
        ∀ s ∈ v.dims, ¬(s = "time" ∨ s = "x" ∨ s = "y")) ∧
    (∀ (i : Int) (out : List (String × NDArray)), exTS2.getItem i = some out →
      ∀ key ∈ exTS2.constants, out.lookup key = none) :=
  c5_constant_classification exampleDS2 (some 4) exTS2 rfl

/-- Claim C6 (code bug): the notebook's import cell binds only
`Dataset` and `DataLoader` from `torch.utils.data`, never the global
`torch`, so every `torch_constants()` call raises `NameError` instead of
returning the mapping of constants to float tensors. -/
theorem c6_torch_constants_name_error (ts : XRTimeSeries) :
    ts.torch_constants = Except.error (PyError.nameError "torch") := by
  unfold XRTimeSeries.torch_constants
  rw [if_neg (by decide)]

/-- Claim C7: omitting the time-window length sets `time_length` to the
full time extent, divisibility holds trivially, and the sample count is
`num_y * num_x`. -/
theorem c7_default_time_length (d : XRDataset) (hT : 0 < d.sizes "time") :
    ∃ ts, XRTimeSeries.make d none = Except.ok ts ∧
      ts.time_length = d.sizes "time" ∧
      ts.len = d.sizes "y" * d.sizes "x" := by
  refine ⟨buildTS d (d.sizes "time"), ?_, rfl, ?_⟩
  · exact make_ok_iff.mpr ⟨by show d.sizes "time" ≠ 0; omega, Nat.mod_self _, rfl⟩
  · show (product3 (rangeStep (d.sizes "time") (d.sizes "time"))
      (List.range (d.sizes "y")) (List.range (d.sizes "x"))).length = _
    rw [length_product3, length_rangeStep hT (Nat.mod_self _), Nat.div_self hT]
    simp

/-- Witness for C7: constructing the notebook dataset without a window
length gives `time_length = 4` and `5 * 2` samples. -/
theorem c7_default_time_length_witness :
    ∃ ts, XRTimeSeries.make exampleDS none = Except.ok ts ∧
      ts.time_length = exampleDS.sizes "time" ∧
      ts.len = exampleDS.sizes "y" * exampleDS.sizes "x" :=
  c7_default_time_length exampleDS (by decide)

/-- Claim C8: the `scale` property reads the attribute `std`, which no
method of the class ever assigns; without that external input every
constructed indexer's `scale` access fails (`AttributeError`) and produces
no result. -/
theorem c8_scale_requires_external_std (d : XRDataset) (tlArg : Option Nat)
    (ts : XRTimeSeries) (hmk : XRTimeSeries.make d tlArg = Except.ok ts) :
    ts.std_attr = none ∧ ts.scale = Except.error (PyError.attributeError "std") := by
  obtain ⟨h0, hmod, hts⟩ := make_ok_iff.mp hmk
  subst hts
  exact ⟨rfl, rfl⟩

/-- Witness for C8 on the notebook indexer. -/
theorem c8_scale_requires_external_std_witness :
    exTS.std_attr = none ∧ exTS.scale = Except.error (PyError.attributeError "std") :=
  c8_scale_requires_external_std exampleDS (some 4) exTS rfl

/-- Claim C9: an explicit `time_length` of 0 is falsy, so `__init__`
silently replaces it with the full time extent: construction behaves
exactly as if the argument were omitted and never raises the divisibility
assertion. -/
theorem c9_zero_time_length (d : XRDataset) :
    XRTimeSeries.make d (some 0) = XRTimeSeries.make d none ∧
    XRTimeSeries.make d (some 0) ≠ Except.error ConstructError.assertionError := by
  refine ⟨rfl, ?_⟩
  intro hcontra
  by_cases hT : d.sizes "time" = 0
  · have hz : XRTimeSeries.make d (some 0) = Except.error ConstructError.rangeStepZero := by
      unfold XRTimeSeries.make
      rw [if_pos]
      show effTimeLength d (some 0) = 0
      show (if (0 : Nat) = 0 then d.sizes "time" else 0) = 0
      rw [if_pos rfl, hT]
    rw [hz] at hcontra
    simp only [Except.error.injEq] at hcontra
    cases hcontra
  · have h0 : effTimeLength d (some 0) ≠ 0 := by
      show (if (0 : Nat) = 0 then d.sizes "time" else 0) ≠ 0
      rw [if_pos rfl]
      exact hT
    have hmod : d.sizes "time" % effTimeLength d (some 0) = 0 := by
      have he : effTimeLength d (some 0) = d.sizes "time" := by
        show (if (0 : Nat) = 0 then d.sizes "time" else 0) = d.sizes "time"
        rw [if_pos rfl]
      rw [he]
      exact Nat.mod_self _
    have hok : XRTimeSeries.make d (some 0) =
        Except.ok (buildTS d (effTimeLength d (some 0))) :=
      make_ok_iff.mpr ⟨h0, hmod, rfl⟩
    rw [hok] at hcontra
    cases hcontra

/-- Claim C10: the `time_dim` property indexes the dict `self.dims` with
the integer key 0; for string-named variables the key is absent, so the
access fails with a lookup error and never returns the time dimension's
name. -/
theorem c10_time_dim_key_error (d : XRDataset) (tlArg : Option Nat)
    (ts : XRTimeSeries) (hmk : XRTimeSeries.make d tlArg = Except.ok ts) :
    ts.time_dim = none := by
  obtain ⟨h0, hmod, hts⟩ := make_ok_iff.mp hmk
  subst hts
  show (List.lookup (PyKey.int 0)
      (d.data_vars.map fun kv => (PyKey.str kv.1, kv.2.dims))).bind (fun t => t.get? 0) =
    none
  have h : List.lookup (PyKey.int 0)
      (d.data_vars.map fun kv => (PyKey.str kv.1, kv.2.dims)) = none := by
    have h2 := lookup_int_none (l := d.data_vars) (fun kv => kv.2.dims) 0
    simpa using h2
  rw [h]
  rfl

/-- Witness for C10 on the notebook indexer. -/
theorem c10_time_dim_key_error_witness : exTS.time_dim = none :=
  c10_time_dim_key_error exampleDS (some 4) exTS rfl
